import Mathlib

/-!
Verification of the resilient recursive site crawler
(packages/ai-rag-kit/src/crawler/recursive-crawler.ts).

The development shallowly embeds the crawler: pure helpers
(normalizeUrl, extractDomain, shouldCrawl, htmlToMarkdown,
decodeHtmlEntities, countWords) are translated directly from the
source; the effectful parts (fetch, the Defuddle content extractor and
the DOM link extractor, which are external dependencies) are modelled
as an explicit environment record `Web` that the crawl functions take
as a parameter.  The platform URL parser invoked by `new URL(...)` is
modelled by `parseUrl` (an executable model of the WHATWG parser
restricted to the features the crawler exercises: scheme, host/port,
path, query/fragment splitting; userinfo and percent-encoding are not
modelled, and lowercasing is ASCII as in all addresses handled here).
-/

namespace Crawler

set_option maxRecDepth 8000
set_option maxHeartbeats 1000000

/-! ## Character-level model of JavaScript toLowerCase (ASCII range) -/

/-- ASCII lowercasing of one character, as applied by
String.prototype.toLowerCase on the ASCII addresses the crawler
handles. -/
def lowerChar : Char → Char
  | 'A' => 'a' | 'B' => 'b' | 'C' => 'c' | 'D' => 'd' | 'E' => 'e'
  | 'F' => 'f' | 'G' => 'g' | 'H' => 'h' | 'I' => 'i' | 'J' => 'j'
  | 'K' => 'k' | 'L' => 'l' | 'M' => 'm' | 'N' => 'n' | 'O' => 'o'
  | 'P' => 'p' | 'Q' => 'q' | 'R' => 'r' | 'S' => 's' | 'T' => 't'
  | 'U' => 'u' | 'V' => 'v' | 'W' => 'w' | 'X' => 'x' | 'Y' => 'y'
  | 'Z' => 'z'
  | c => c

/-- Lowercase a whole string (model of url.toLowerCase()). -/
def lowerStr (s : String) : String := ⟨s.data.map lowerChar⟩

/-! ## Model of the WHATWG URL parser used via new URL(url)

Only the pieces the crawler reads are modelled: `protocol` (the
scheme), `host` (hostname plus optional port) and `pathname`.  The
parser fails (new URL throws) when there is no scheme followed by
`://`, or when the host — or the hostname part before a port — is
empty. -/

structure UrlParts where
  scheme : List Char
  host : List Char
  pathname : List Char
deriving DecidableEq, Repr

/-- True for characters that terminate the host component. -/
def hostEnd (c : Char) : Bool := c == '/' || c == '?' || c == '#'

/-- True for characters that terminate the pathname component. -/
def pathEnd (c : Char) : Bool := c == '?' || c == '#'

/-- Recognise the literal scheme separator after the scheme letters. -/
def stripSchemeSep : List Char → Option (List Char)
  | ':' :: '/' :: '/' :: rest => some rest
  | _ => none

/-- Model of new URL(s): split an absolute address into scheme, host
and pathname, dropping query and fragment; none models a thrown
TypeError. -/
def parseUrl (cs : List Char) : Option UrlParts :=
  let scheme := cs.takeWhile Char.isAlpha
  match stripSchemeSep (cs.dropWhile Char.isAlpha) with
  | none => none
  | some rest =>
    if scheme.isEmpty then none
    else
      let host := rest.takeWhile (fun c => !hostEnd c)
      if host.isEmpty then none
      else if (host.takeWhile (fun c => c != ':')).isEmpty then none
      else
        let pathRaw := (rest.dropWhile (fun c => !hostEnd c)).takeWhile (fun c => !pathEnd c)
        some ⟨scheme, host, if pathRaw.isEmpty then ['/'] else pathRaw⟩

/-! ## Address normalization (source: normalizeUrl, lines 339-352) -/

/-- Embedding of normalizeUrl: on a parseable address, rebuild
protocol//host + pathname, strip one trailing slash when longer than
one character, and lowercase; on parse failure return the lowercased
input. -/
def normalizeUrl (url : String) : String :=
  match parseUrl url.data with
  | some p =>
    let n := p.scheme ++ ':' :: '/' :: '/' :: (p.host ++ p.pathname)
    let n := if n.getLast? = some '/' ∧ 1 < n.length then n.dropLast else n
    ⟨n.map lowerChar⟩
  | none => lowerStr url

/-! ## Domain extraction (source: extractDomain, lines 354-361) -/

/-- Embedding of extractDomain: the lowercased hostname (host without
the port) of a parseable address, and the empty string when new URL
throws. -/
def extractDomain (url : String) : String :=
  match parseUrl url.data with
  | some p => ⟨(p.host.takeWhile (fun c => c != ':')).map lowerChar⟩
  | none => ""

/-! ## Crawl policy check (source: shouldCrawl, lines 363-395)

RegExp patterns are modelled as opaque Boolean predicates on the
address string (RegExp.prototype.test). -/

structure CrawlConfig where
  maxDepth : Nat
  maxPages : Nat
  sameDomainOnly : Bool
  delayBetweenRequests : Nat
  timeout : Nat
  useFallback : Bool
  includeImages : Bool := false
  excludePatterns : List (String → Bool) := []
  includePatterns : List (String → Bool) := []

/-- Embedding of the DEFAULTS configuration object. -/
def DEFAULTS : CrawlConfig :=
  { maxDepth := 2, maxPages := 50, sameDomainOnly := true,
    delayBetweenRequests := 1000, timeout := 15000, useFallback := true }

/-- Embedding of shouldCrawl: same-domain check, then exclude
patterns, then include patterns. -/
def shouldCrawl (url : String) (startDomain : String) (cfg : CrawlConfig) : Bool :=
  if cfg.sameDomainOnly && (extractDomain url != startDomain) then false
  else if cfg.excludePatterns.any (fun p => p url) then false
  else if !cfg.includePatterns.isEmpty && !(cfg.includePatterns.any fun p => p url) then false
  else true

/-! ## Markup-to-text normalization (source: htmlToMarkdown, lines 410-459)

Each JavaScript text.replace(regex, repl) with a global flag is
embedded as a left-to-right scan (applyRe) driven by a matcher that
recognises the regex at the current position and produces the
replacement plus the remaining input; matched text is consumed and
replacements are not rescanned by the same pass, exactly as for a
global regex replace. -/

/-- A matcher recognises a pattern at the head of the input and
returns the replacement text and the input remaining after the match.
Every matcher used here consumes at least one character. -/
def Matcher : Type := List Char → Option (List Char × List Char)

/-- Match a literal pattern (given in lowercase) case-insensitively at
the head of the input, returning the rest. -/
def matchLitCI : List Char → List Char → Option (List Char)
  | [], cs => some cs
  | _ :: _, [] => none
  | p :: ps, c :: cs => if lowerChar c == p then matchLitCI ps cs else none

/-- Split the input at the first case-insensitive occurrence of a
literal, returning the text before it and the text after it (the
non-greedy inner capture of the source regexes). -/
def splitAtCI (pat : List Char) : List Char → Option (List Char × List Char)
  | [] => (matchLitCI pat []).map fun rest => ([], rest)
  | c :: cs =>
    match matchLitCI pat (c :: cs) with
    | some rest => some ([], rest)
    | none => (splitAtCI pat cs).map fun pr => (c :: pr.1, pr.2)

/-- One pass of a global regex replace: scan left to right, replacing
each match and continuing after it. The fuel argument is the length
of the input, sufficient because every matcher consumes at least one
character. -/
def applyReGo (m : Matcher) : Nat → List Char → List Char
  | 0, cs => cs
  | _ + 1, [] => []
  | fuel + 1, c :: cs =>
    match m (c :: cs) with
    | some (repl, rest) => repl ++ applyReGo m fuel rest
    | none => c :: applyReGo m fuel cs

def applyRe (m : Matcher) (cs : List Char) : List Char := applyReGo m cs.length cs

/-- Matcher for an opening tag with attributes and its matching close
tag, the shape NAME[^>]*>inner</NAME> used for script, style,
headings, paragraphs, list items, emphasis and anchors; mk builds the
replacement from the inner capture. -/
def pairTag (name : String) (mk : List Char → List Char) : Matcher := fun cs =>
  match matchLitCI ('<' :: name.data) cs with
  | none => none
  | some afterName =>
    let attrs := afterName.takeWhile (fun c => c != '>')
    match afterName.drop attrs.length with
    | '>' :: afterOpen =>
      (splitAtCI ('<' :: '/' :: (name.data ++ ['>'])) afterOpen).map
        fun pr => (mk pr.1, pr.2)
    | _ => none

/-- Matcher for a lone opening tag NAME[^>]*> replaced by a fixed
string (the ul/ol/img cases). -/
def openTag (name : String) (repl : String) : Matcher := fun cs =>
  match matchLitCI ('<' :: name.data) cs with
  | none => none
  | some afterName =>
    let attrs := afterName.takeWhile (fun c => c != '>')
    match afterName.drop attrs.length with
    | '>' :: rest => some (repl.data, rest)
    | _ => none

/-- Matcher for an exact literal (case-insensitive), such as the close
tags in the ul and ol passes. -/
def litTag (lit : String) (repl : String) : Matcher := fun cs =>
  (matchLitCI lit.data cs).map fun rest => (repl.data, rest)

/-- Matcher trying one matcher and falling back to a second: the
alternation in the ul and ol regexes. -/
def orElseM (a b : Matcher) : Matcher := fun cs =>
  match a cs with
  | some r => some r
  | none => b cs

/-- Matcher for the line-break regex br\s*\/?> (after the leading
angle bracket and name). -/
def brMatcher : Matcher := fun cs =>
  match matchLitCI "<br".data cs with
  | none => none
  | some afterName =>
    let ws := afterName.takeWhile Char.isWhitespace
    match afterName.drop ws.length with
    | '/' :: '>' :: rest => some ("\n".data, rest)
    | '>' :: rest => some ("\n".data, rest)
    | _ => none

/-- Matcher for the final tag-stripping regex: an angle bracket, one
or more non-closing characters, and the closing bracket. -/
def tagStrip : Matcher := fun cs =>
  match cs with
  | '<' :: rest =>
    let attrs := rest.takeWhile (fun c => c != '>')
    if attrs.isEmpty then none
    else
      match rest.drop attrs.length with
      | '>' :: r => some ([], r)
      | _ => none
  | _ => none

/-- Scan for attr="value" inside a tag, failing if the tag closes
first; returns the value and the input after the closing quote.
Models the src and alt captures of the image regexes (up to regex
backtracking order, which the crawler never depends on). -/
def findAttr (attr : String) : List Char → Option (List Char × List Char)
  | [] => none
  | c :: cs =>
    if c == '>' then none
    else
      match matchLitCI attr.data (c :: cs) with
      | some afterAttr =>
        let v := afterAttr.takeWhile (fun x => x != '"')
        match afterAttr.drop v.length with
        | '"' :: rest => some (v, rest)
        | _ => none
      | none => findAttr attr cs

/-- Skip the rest of a tag up to and including its closing bracket. -/
def skipToClose (cs : List Char) : Option (List Char) :=
  let attrs := cs.takeWhile (fun c => c != '>')
  match cs.drop attrs.length with
  | '>' :: rest => some rest
  | _ => none

/-- Matcher for img tags with src and alt captured (the
includeImages branch), producing markdown image syntax. -/
def imgSrcAlt : Matcher := fun cs =>
  match matchLitCI "<img".data cs with
  | none => none
  | some afterName =>
    match findAttr "src=\"" afterName with
    | none => none
    | some (src, afterSrc) =>
      match findAttr "alt=\"" afterSrc with
      | none => none
      | some (alt, afterAlt) =>
        (skipToClose afterAlt).map fun rest =>
          ("![".data ++ alt ++ "](".data ++ src ++ ")".data, rest)

/-- Matcher for img tags with only src captured. -/
def imgSrcOnly : Matcher := fun cs =>
  match matchLitCI "<img".data cs with
  | none => none
  | some afterName =>
    match findAttr "src=\"" afterName with
    | none => none
    | some (src, afterSrc) =>
      (skipToClose afterSrc).map fun rest =>
        ("![](".data ++ src ++ ")".data, rest)

/-- Matcher collapsing runs of three or more newlines to exactly
two. -/
def newlineRun : Matcher := fun cs =>
  let run := cs.takeWhile (fun c => c == '\n')
  if 3 ≤ run.length then some ("\n\n".data, cs.drop run.length) else none

/-- Matcher collapsing runs of spaces and tabs to one space. -/
def hspaceRun : Matcher := fun cs =>
  let run := cs.takeWhile (fun c => c == ' ' || c == '\t')
  if 1 ≤ run.length then some (" ".data, cs.drop run.length) else none

/-- Matcher for a case-sensitive literal, used for the named HTML
entities. -/
def litCS (pat repl : String) : Matcher := fun cs =>
  if pat.data.isPrefixOf cs then some (repl.data, cs.drop pat.data.length) else none

/-- Numeric value of a run of decimal digits. -/
def digitsToNat (ds : List Char) : Nat :=
  ds.foldl (fun n c => n * 10 + (c.toNat - 48)) 0

/-- Matcher for decimal numeric character references, using
String.fromCharCode semantics (code point taken modulo 2^16). -/
def decimalEntity : Matcher := fun cs =>
  match cs with
  | '&' :: '#' :: rest =>
    let ds := rest.takeWhile Char.isDigit
    if ds.isEmpty then none
    else
      match rest.drop ds.length with
      | ';' :: r => some ([Char.ofNat (digitsToNat ds % 65536)], r)
      | _ => none
  | _ => none

/-- Embedding of decodeHtmlEntities: the named entities replaced in
object-iteration order, then decimal numeric references. There is no
rule for hexadecimal references. -/
def decodeHtmlEntities (s : String) : String :=
  let t := s.data
  let t := applyRe (litCS "&nbsp;" " ") t
  let t := applyRe (litCS "&amp;" "&") t
  let t := applyRe (litCS "&lt;" "<") t
  let t := applyRe (litCS "&gt;" ">") t
  let t := applyRe (litCS "&quot;" "\"") t
  let t := applyRe (litCS "&#39;" "\x27") t
  let t := applyRe (litCS "&apos;" "\x27") t
  let t := applyRe decimalEntity t
  ⟨t⟩

/-- JavaScript String.prototype.trim over the ASCII whitespace the
pipeline produces. -/
def trimEnds (cs : List Char) : List Char :=
  ((cs.dropWhile Char.isWhitespace).reverse.dropWhile Char.isWhitespace).reverse

/-- Embedding of htmlToMarkdown: the exact sequence of replace passes
of the source. Heading rules exist only for h1 through h4; h5 and h6
fall through to the final tag-stripping pass. -/
def htmlToMarkdown (html : String) (includeImages : Bool) : String :=
  let t := html.data
  let t := applyRe (pairTag "script" fun _ => []) t
  let t := applyRe (pairTag "style" fun _ => []) t
  let t := applyRe (pairTag "h1" fun i => "\n# ".data ++ i ++ "\n".data) t
  let t := applyRe (pairTag "h2" fun i => "\n## ".data ++ i ++ "\n".data) t
  let t := applyRe (pairTag "h3" fun i => "\n### ".data ++ i ++ "\n".data) t
  let t := applyRe (pairTag "h4" fun i => "\n#### ".data ++ i ++ "\n".data) t
  let t := applyRe (pairTag "p" fun i => "\n".data ++ i ++ "\n".data) t
  let t := applyRe brMatcher t
  let t := applyRe (pairTag "li" fun i => "- ".data ++ i ++ "\n".data) t
  let t := applyRe (orElseM (openTag "ul" "\n") (litTag "</ul>" "\n")) t
  let t := applyRe (orElseM (openTag "ol" "\n") (litTag "</ol>" "\n")) t
  let t := applyRe (pairTag "strong" fun i => "**".data ++ i ++ "**".data) t
  let t := applyRe (pairTag "b" fun i => "**".data ++ i ++ "**".data) t
  let t := applyRe (pairTag "em" fun i => "*".data ++ i ++ "*".data) t
  let t := applyRe (pairTag "a" fun i => i) t
  let t :=
    if includeImages then applyRe imgSrcOnly (applyRe imgSrcAlt t)
    else applyRe (openTag "img" "") t
  let t := applyRe tagStrip t
  let t := (decodeHtmlEntities ⟨t⟩).data
  let t := applyRe newlineRun t
  let t := applyRe hspaceRun t
  ⟨trimEnds t⟩

/-! ## Word counting (source: countWords, lines 483-488) -/

/-- True for a Korean syllable in the range of the source regex. -/
def isKoreanSyllable (c : Char) : Bool :=
  0xAC00 ≤ c.toNat && c.toNat ≤ 0xD7A3

/-- True for a Latin letter. -/
def isLatin (c : Char) : Bool :=
  (65 ≤ c.toNat && c.toNat ≤ 90) || (97 ≤ c.toNat && c.toNat ≤ 122)

/-- Count maximal runs of Latin letters (the matches of the global
letters regex). -/
def latinRuns : Bool → List Char → Nat
  | _, [] => 0
  | inRun, c :: cs =>
    if isLatin c then (if inRun then 0 else 1) + latinRuns true cs
    else latinRuns false cs

/-- Embedding of countWords: Korean syllables counted singly plus
maximal Latin-letter runs. -/
def countWords (text : String) : Nat :=
  (text.data.filter isKoreanSyllable).length + latinRuns false text.data

/-! ## Data model of crawl results (source types and lines 148-155) -/

structure ExtractedLink where
  url : String
  text : String
  depth : Nat
deriving DecidableEq, Repr

structure ClipResult where
  title : String
  content : String
  url : String
  wordCount : Nat
  publishedTime : Option String
  author : Option String
  siteName : Option String
deriving DecidableEq, Repr

structure CrawlFailure where
  url : String
  error : String
  attemptedStrategies : List String
  depth : Nat
deriving DecidableEq, Repr

/-- Model of a settled fetch: either a transport error message (a
rejected promise or timeout) or a response with its status, headers of
interest, body text and the final address after redirects
(response.url). -/
structure FetchResponse where
  ok : Bool
  status : Nat
  statusText : String
  contentType : String
  body : String
  responseUrl : String
deriving DecidableEq, Repr

/-- Model of the result of new Defuddle(document).parse(). -/
structure DefuddleResult where
  content : Option String
  title : Option String
  published : Option String
  author : Option String
  site : Option String
deriving DecidableEq, Repr

/-- The effectful environment of one crawl: the network (keyed by
address and by the strategy name, since strategies differ only in
their header profile), the Defuddle content extractor applied to the
response body, and the DOM link extractor applied to the response body
and the base address (extractLinks over the jsdom document). -/
structure Web where
  fetch : String → String → Except String FetchResponse
  defuddle : String → Option DefuddleResult
  links : String → String → List ExtractedLink

/-! ## Fetch strategies (source: USER_AGENTS and lines 163-173) -/

def uaChromeWindows : String :=
  "Mozilla/5.0 (Windows NT 10.0; Win64; x64) AppleWebKit/537.36 (KHTML, like Gecko) Chrome/120.0.0.0 Safari/537.36"
def uaChromeMac : String :=
  "Mozilla/5.0 (Macintosh; Intel Mac OS X 10_15_7) AppleWebKit/537.36 (KHTML, like Gecko) Chrome/120.0.0.0 Safari/537.36"
def uaFirefox : String :=
  "Mozilla/5.0 (Windows NT 10.0; Win64; x64; rv:121.0) Gecko/20100101 Firefox/121.0"
def uaMobileChrome : String :=
  "Mozilla/5.0 (Linux; Android 10; SM-G981B) AppleWebKit/537.36 (KHTML, like Gecko) Chrome/120.0.0.0 Mobile Safari/537.36"
def uaGooglebot : String :=
  "Mozilla/5.0 (compatible; Googlebot/2.1; +http://www.google.com/bot.html)"

/-- The five fixed strategies in the order built by crawlWithFallback:
name and user-agent. The user agent identifies the profile: the
default is Chrome on Windows, chrome-mac is the alternate-OS profile,
firefox the alternate-browser profile, mobile the mobile profile and
googlebot the declared-crawler profile. -/
def strategies : List (String × String) :=
  [("default", uaChromeWindows), ("chrome-mac", uaChromeMac),
   ("firefox", uaFirefox), ("mobile", uaMobileChrome),
   ("googlebot", uaGooglebot)]

/-- The strategies actually tried: all five with fallback enabled,
only the first otherwise. -/
def strategiesToTry (useFallback : Bool) : List (String × String) :=
  if useFallback then strategies else strategies.take 1

/-! ## Single crawl attempt (source: attemptCrawl, lines 218-280) -/

/-- Substring test (String.prototype.includes). -/
def hasSub : List Char → List Char → Bool
  | pat, [] => pat.isEmpty
  | pat, c :: cs => pat.isPrefixOf (c :: cs) || hasSub pat cs

def isHtmlContentType (ct : String) : Bool :=
  hasSub "text/html".data ct.data || hasSub "application/xhtml".data ct.data

/-- JavaScript x || undefined on an optional string field. -/
def orUndefined : Option String → Option String
  | some "" => none
  | x => x

/-- JavaScript result.title || the Untitled default. -/
def titleOr : Option String → String
  | none => "Untitled"
  | some "" => "Untitled"
  | some t => t

/-- Embedding of attemptCrawl: fetch, status check, content-type
check, Defuddle extraction, markdown conversion, minimum-length gate,
link extraction; every failure is a thrown error message. The clip
records the requested address in its url field. -/
def attemptCrawl (web : Web) (url : String) (strategyName : String)
    (includeImages : Bool) : Except String (ClipResult × List ExtractedLink) :=
  match web.fetch url strategyName with
  | .error m => .error m
  | .ok resp =>
    if !resp.ok then .error ("HTTP " ++ toString resp.status ++ ": " ++ resp.statusText)
    else if !isHtmlContentType resp.contentType then
      .error ("HTML이 아님: " ++ resp.contentType)
    else
      match web.defuddle resp.body with
      | none => .error "콘텐츠 추출 실패"
      | some r =>
        match r.content with
        | none => .error "콘텐츠 추출 실패"
        | some c =>
          if c == "" then .error "콘텐츠 추출 실패"
          else
            let markdown := htmlToMarkdown c includeImages
            if markdown.length < 100 then
              .error ("콘텐츠 너무 짧음: " ++ toString markdown.length ++ "자")
            else
              .ok ({ title := titleOr r.title, content := markdown, url := url,
                     wordCount := countWords markdown,
                     publishedTime := orUndefined r.published,
                     author := orUndefined r.author,
                     siteName := orUndefined r.site }, web.links resp.body url)

/-! ## Fallback loop (source: crawlWithFallback, lines 157-215) -/

inductive FallbackOutcome where
  | ok (data : ClipResult) (extractedLinks : List ExtractedLink)
      (attemptedStrategies : List String)
  | fail (error : String) (attemptedStrategies : List String)
deriving DecidableEq, Repr

/-- The attempted-strategy names of an outcome. -/
def FallbackOutcome.attempted : FallbackOutcome → List String
  | .ok _ _ a => a
  | .fail _ a => a

/-- Whether the outcome is a failure (a CrawlFailure will be
recorded). -/
def FallbackOutcome.isFail : FallbackOutcome → Bool
  | .ok _ _ _ => false
  | .fail _ _ => true

/-- Iteration of crawlWithFallback over the remaining strategies,
carrying the names already attempted; a failure of the last strategy
returns the failure, the unreachable end of the loop returns the
all-strategies-failed message as in the source. -/
def crawlWithFallbackGo (web : Web) (url : String) (includeImages : Bool) :
    List String → List (String × String) → FallbackOutcome
  | attempted, [] => .fail "모든 폴백 전략 실패" attempted
  | attempted, s :: rest =>
    let attempted := attempted ++ [s.1]
    match attemptCrawl web url s.1 includeImages with
    | .ok (clip, links) => .ok clip links attempted
    | .error m =>
      if rest.isEmpty then .fail m attempted
      else crawlWithFallbackGo web url includeImages attempted rest

def crawlWithFallback (web : Web) (cfg : CrawlConfig) (url : String) : FallbackOutcome :=
  crawlWithFallbackGo web url cfg.includeImages [] (strategiesToTry cfg.useFallback)

/-! ## The orchestrator loop (source: crawlRecursively, lines 54-146)

The state of one run: the visited set in insertion order, the
frontier queue, the success list and the failure list. The while loop
runs while the queue is non-empty and successCount + failedCount <
maxPages; it is embedded as recursion on the remaining page budget
maxPages - (successCount + failedCount), which falls by exactly one at
each processed page, with the budget-neutral dequeue-and-skip steps
folded into findNext (each skip only pops the queue and changes
nothing else, so the state after a run of skips is the state with
those entries dropped). Progress callbacks, wall-clock timing and the
inter-request delays do not touch the state and are elided. -/

structure CrawlState where
  visited : List String
  queue : List (String × Nat)
  success : List ClipResult
  failed : List CrawlFailure
deriving Repr

structure RecursiveCrawlResult where
  success : List ClipResult
  failed : List CrawlFailure
  visitedUrls : List String
deriving DecidableEq, Repr

/-- Dequeue entries until one survives the visited, depth and policy
filters (the two continue branches of the loop body); returns that
entry and the remaining queue, or none when the queue runs dry. -/
def findNext (cfg : CrawlConfig) (startDomain : String) (visited : List String) :
    List (String × Nat) → Option ((String × Nat) × List (String × Nat))
  | [] => none
  | (url, depth) :: rest =>
    if visited.contains url || decide (cfg.maxDepth < depth) then
      findNext cfg startDomain visited rest
    else if !shouldCrawl url startDomain cfg then
      findNext cfg startDomain visited rest
    else some ((url, depth), rest)

/-- One processed page: mark the address visited, run the fallback
crawl, then either record the success and enqueue the normalized
not-yet-visited links of the next depth, or record the failure. -/
def crawlStep (web : Web) (cfg : CrawlConfig) (s : CrawlState)
    (url : String) (depth : Nat) (rest : List (String × Nat)) : CrawlState :=
  let visited := s.visited ++ [url]
  match crawlWithFallback web cfg url with
  | .ok data links _ =>
    let newEntries :=
      if depth < cfg.maxDepth then
        links.filterMap fun l =>
          let n := normalizeUrl l.url
          if visited.contains n then none else some (n, depth + 1)
      else []
    { visited := visited, queue := rest ++ newEntries,
      success := s.success ++ [data], failed := s.failed }
  | .fail err attempted =>
    { visited := visited, queue := rest,
      success := s.success,
      failed := s.failed ++ [{ url := url, error := err,
                               attemptedStrategies := attempted, depth := depth }] }

/-- The while loop, by recursion on the remaining page budget. -/
def crawlLoop (web : Web) (cfg : CrawlConfig) (startDomain : String) :
    Nat → CrawlState → CrawlState
  | 0, s => s
  | b + 1, s =>
    match findNext cfg startDomain s.visited s.queue with
    | none => { s with queue := [] }
    | some ((url, depth), rest) =>
      crawlLoop web cfg startDomain b (crawlStep web cfg s url depth rest)

/-- The initial state: the normalized start address at depth zero. -/
def initState (startUrl : String) : CrawlState :=
  { visited := [], queue := [(normalizeUrl startUrl, 0)], success := [], failed := [] }

/-- Embedding of crawlRecursively (wall-clock totalTime elided). -/
def crawlRecursively (web : Web) (cfg : CrawlConfig) (startUrl : String) :
    RecursiveCrawlResult :=
  let final := crawlLoop web cfg (extractDomain startUrl) cfg.maxPages (initState startUrl)
  { success := final.success, failed := final.failed, visitedUrls := final.visited }

/-- Combined success plus failure page count of a state. -/
def processedCount (s : CrawlState) : Nat := s.success.length + s.failed.length

/-- The addresses recorded in the two output lists, successes first. -/
def recordedUrls (s : CrawlState) : List String :=
  s.success.map ClipResult.url ++ s.failed.map CrawlFailure.url

/-- Pointwise lowercasing of parsed URL components. -/
def lowerParts (p : UrlParts) : UrlParts :=
  ⟨p.scheme.map lowerChar, p.host.map lowerChar, p.pathname.map lowerChar⟩

/-- The bookkeeping invariant of the orchestrator loop: the recorded
addresses are pairwise distinct, and an address is in the visited set
exactly when it is recorded in one of the two output lists. -/
def StateInv (s : CrawlState) : Prop :=
  (recordedUrls s).Nodup ∧ ∀ u, u ∈ s.visited ↔ u ∈ recordedUrls s

/-! ## Decidable views and attempt-classification predicates -/

/-- The strategy names tried for a given fallback flag. -/
def strategyNames (useFallback : Bool) : List String :=
  (strategiesToTry useFallback).map Prod.fst

/-- The final address (response.url) of a settled fetch, when it
produced a response. -/
def respUrlOf : Except String FetchResponse → Option String
  | .ok r => some r.responseUrl
  | .error _ => none

/-- The address recorded in the clip of a successful attempt. -/
def attemptUrlOf : Except String (ClipResult × List ExtractedLink) → Option String
  | .ok pr => some pr.1.url
  | .error _ => none

/-- True when the attempt with the given strategy throws. -/
def attemptFails (web : Web) (url name : String) (includeImages : Bool) : Bool :=
  match attemptCrawl web url name includeImages with
  | .error _ => true
  | .ok _ => false

/-- True when the fetch for the given strategy resolves to a non-2xx
response. -/
def fetchNon2xx (web : Web) (url name : String) : Bool :=
  match web.fetch url name with
  | .ok r => !r.ok
  | .error _ => false

/-- True when the fetch for the given strategy succeeds with an HTML
2xx response but content extraction then fails: Defuddle finds no
content, the content is empty, or the normalized markdown is below
the 100-character floor. -/
def fetchOkExtractFails (web : Web) (url name : String) (includeImages : Bool) : Bool :=
  match web.fetch url name with
  | .error _ => false
  | .ok resp =>
    resp.ok && isHtmlContentType resp.contentType &&
      (match web.defuddle resp.body with
       | none => true
       | some r =>
         match r.content with
         | none => true
         | some c => c == "" || decide ((htmlToMarkdown c includeImages).length < 100))

/-! ## Concrete environments used in examples and counterexamples -/

/-- One hundred characters of plain text: survives the markdown pass
unchanged and meets the minimum-length gate exactly. -/
def contentA : String := ⟨List.replicate 100 'a'⟩

def defResultA : DefuddleResult :=
  { content := some contentA, title := some "T",
    published := none, author := none, site := none }

/-- A 200 HTML response for the given address with the given body. -/
def okResp (u body : String) : FetchResponse :=
  { ok := true, status := 200, statusText := "OK",
    contentType := "text/html", body := body, responseUrl := u }

/-- Ten distinct same-site outbound links. -/
def tenLinks : List ExtractedLink :=
  (List.range 10).map fun i => { url := "https://a.test/l" ++ toString i, text := "", depth := 0 }

/-- A site whose start page succeeds and yields ten outbound links;
everything else is a 404. -/
def webTenLinks : Web :=
  { fetch := fun u _ =>
      if u == "https://a.test/x" then .ok (okResp u "B") else .error "HTTP 404: Not Found",
    defuddle := fun b => if b == "B" then some defResultA else none,
    links := fun _ _ => tenLinks }

/-- A site where the start page links to p1 and p2, fetching p1
succeeds with HTML on every strategy but Defuddle finds no content in
it, and p2 extracts normally. -/
def webExtractFail : Web :=
  { fetch := fun u _ =>
      if u == "https://c.test/start" then .ok (okResp u "S")
      else if u == "https://c.test/p1" then .ok (okResp u "E")
      else if u == "https://c.test/p2" then .ok (okResp u "C")
      else .error "HTTP 404: Not Found",
    defuddle := fun b => if b == "E" then none else some defResultA,
    links := fun b _ =>
      if b == "S" then
        [{ url := "https://c.test/p1", text := "", depth := 0 },
         { url := "https://c.test/p2", text := "", depth := 0 }]
      else [] }

/-- A site where the start page links to p1 and p2, p1 answers 403 on
every strategy, and p2 succeeds. -/
def webForbidden : Web :=
  { fetch := fun u _ =>
      if u == "https://d.test/start" then .ok (okResp u "S")
      else if u == "https://d.test/p1" then
        .ok { ok := false, status := 403, statusText := "Forbidden",
              contentType := "text/html", body := "", responseUrl := u }
      else if u == "https://d.test/p2" then .ok (okResp u "C")
      else .error "HTTP 404: Not Found",
    defuddle := fun _ => some defResultA,
    links := fun b _ =>
      if b == "S" then
        [{ url := "https://d.test/p1", text := "", depth := 0 },
         { url := "https://d.test/p2", text := "", depth := 0 }]
      else [] }

/-- A site that answers every request with a 200 HTML response whose
final address, after redirects, is a fixed landing address distinct
from the requested one. -/
def webRedirect : Web :=
  { fetch := fun _ _ =>
      .ok { ok := true, status := 200, statusText := "OK",
            contentType := "text/html", body := "H",
            responseUrl := "https://final.test/landed" },
    defuddle := fun _ => some defResultA,
    links := fun _ _ => [] }

example : normalizeUrl "https://A.com/Path/" = "https://a.com/path" := by decide
example : normalizeUrl "https://a.com/b//" = "https://a.com/b/" := by decide
example : normalizeUrl (normalizeUrl "https://a.com/b//") = "https://a.com/b" := by decide
example : extractDomain "https://A.com:8080/x" = "a.com" := by decide
example : extractDomain "bad url" = "" := by decide
example : htmlToMarkdown "<h2>Title</h2><p>Hello <b>world</b></p>" false =
    "## Title\n\nHello **world**" := by decide
example : htmlToMarkdown "<h5>Five</h5>" false = "Five" := by decide
example : decodeHtmlEntities "&#65;" = "A" := by decide
example : decodeHtmlEntities "&#x41;" = "&#x41;" := by decide
example : decodeHtmlEntities "&amp;lt;" = "<" := by decide
example : countWords "hello world 한국" = 4 := by decide
example :
    (crawlRecursively webTenLinks { DEFAULTS with maxPages := 1 } "https://a.test/x").success.length = 1 ∧
    (crawlRecursively webTenLinks { DEFAULTS with maxPages := 1 } "https://a.test/x").failed.length = 0 := by
  decide
example :
    (crawlRecursively webExtractFail DEFAULTS "https://c.test/start").failed =
      [{ url := "https://c.test/p1", error := "콘텐츠 추출 실패",
         attemptedStrategies := strategyNames true, depth := 1 }] ∧
    (crawlRecursively webExtractFail DEFAULTS "https://c.test/start").success.map ClipResult.url =
      ["https://c.test/start", "https://c.test/p2"] := by decide
example :
    (crawlRecursively webForbidden DEFAULTS "https://d.test/start").failed =
      [{ url := "https://d.test/p1", error := "HTTP 403: Forbidden",
         attemptedStrategies := strategyNames true, depth := 1 }] := by decide
example :
    attemptUrlOf (attemptCrawl webRedirect "https://start.test/a" "default" false) =
      some "https://start.test/a" := by decide

/-! ## Character-level lemmas about ASCII lowercasing -/

theorem lowerChar_fix (d e : Char) (h : lowerChar d = e) : lowerChar e = e := by
  revert h
  unfold lowerChar
  split <;> intro h <;> subst h
  all_goals first | decide | rfl | (split <;> simp_all)

theorem lowerChar_idem (c : Char) : lowerChar (lowerChar c) = lowerChar c :=
  lowerChar_fix c (lowerChar c) rfl

theorem isAlpha_lowerChar (c : Char) : (lowerChar c).isAlpha = c.isAlpha := by
  unfold lowerChar
  split <;> first | rfl | (subst_vars; decide)

theorem hostEnd_lowerChar (c : Char) : hostEnd (lowerChar c) = hostEnd c := by
  unfold lowerChar
  split <;> first | rfl | (subst_vars; decide)

theorem pathEnd_lowerChar (c : Char) : pathEnd (lowerChar c) = pathEnd c := by
  unfold lowerChar
  split <;> first | rfl | (subst_vars; decide)

theorem lowerChar_bne_colon (c : Char) : (lowerChar c != ':') = (c != ':') := by
  unfold lowerChar
  split <;> first | rfl | (subst_vars; decide)

theorem lowerChar_eq_colon (c : Char) (h : lowerChar c = ':') : c = ':' := by
  revert h
  unfold lowerChar
  split <;> intro h <;> first | rfl | (subst_vars; exact absurd h (by decide)) | exact h

theorem lowerChar_eq_slash (c : Char) (h : lowerChar c = '/') : c = '/' := by
  revert h
  unfold lowerChar
  split <;> intro h <;> first | rfl | (subst_vars; exact absurd h (by decide)) | exact h

theorem map_lowerChar_idem (l : List Char) :
    (l.map lowerChar).map lowerChar = l.map lowerChar := by
  rw [List.map_map]
  exact List.map_congr_left fun c _ => lowerChar_idem c

theorem comp_lowerChar_lowerChar : (lowerChar ∘ lowerChar) = lowerChar :=
  funext lowerChar_idem

/-! ## Lemmas about the URL parser model -/

theorem stripSchemeSep_map_lower (t : List Char) :
    stripSchemeSep (t.map lowerChar) = (stripSchemeSep t).map (List.map lowerChar) := by
  rcases t with _ | ⟨c1, _ | ⟨c2, _ | ⟨c3, t3⟩⟩⟩
  · rfl
  · unfold stripSchemeSep
    split <;> split <;> simp_all
  · unfold stripSchemeSep
    split <;> split <;> simp_all
  · unfold stripSchemeSep
    split
    · next rest heq =>
      obtain ⟨h1, h2, h3, h4⟩ : lowerChar c1 = ':' ∧ lowerChar c2 = '/' ∧
          lowerChar c3 = '/' ∧ t3.map lowerChar = rest := by
        simpa using heq
      rw [lowerChar_eq_colon c1 h1, lowerChar_eq_slash c2 h2, lowerChar_eq_slash c3 h3, ← h4]
      rfl
    · next hne =>
      split
      · next rest heq =>
        obtain ⟨h1, h2, h3, h4⟩ : c1 = ':' ∧ c2 = '/' ∧ c3 = '/' ∧ t3 = rest := by
          simpa using heq
        subst h1; subst h2; subst h3; subst h4
        exact absurd rfl (hne (t3.map lowerChar))
      · rfl

theorem comp_isAlpha_lower : (Char.isAlpha ∘ lowerChar) = Char.isAlpha :=
  funext isAlpha_lowerChar

theorem takeWhile_map_lower_alpha (l : List Char) :
    (l.map lowerChar).takeWhile Char.isAlpha = (l.takeWhile Char.isAlpha).map lowerChar := by
  rw [List.takeWhile_map, comp_isAlpha_lower]

theorem dropWhile_map_lower_alpha (l : List Char) :
    (l.map lowerChar).dropWhile Char.isAlpha = (l.dropWhile Char.isAlpha).map lowerChar := by
  rw [List.dropWhile_map, comp_isAlpha_lower]

theorem lowerChar_colon : lowerChar ':' = ':' := rfl
theorem lowerChar_slash : lowerChar '/' = '/' := rfl

theorem comp_not_hostEnd_lower :
    ((fun c => !hostEnd c) ∘ lowerChar) = (fun c : Char => !hostEnd c) :=
  funext fun c => by simp only [Function.comp_apply, hostEnd_lowerChar]

theorem comp_not_pathEnd_lower :
    ((fun c => !pathEnd c) ∘ lowerChar) = (fun c : Char => !pathEnd c) :=
  funext fun c => by simp only [Function.comp_apply, pathEnd_lowerChar]

theorem comp_bne_colon_lower :
    ((fun c => c != ':') ∘ lowerChar) = (fun c : Char => c != ':') :=
  funext fun c => by simp only [Function.comp_apply, lowerChar_bne_colon]

theorem isEmpty_map (f : Char → Char) (l : List Char) : (l.map f).isEmpty = l.isEmpty := by
  cases l <;> rfl

/-- Lowercasing an address commutes with the URL parser model. -/
theorem parseUrl_map_lower (cs : List Char) :
    parseUrl (cs.map lowerChar) = (parseUrl cs).map lowerParts := by
  unfold parseUrl
  rw [dropWhile_map_lower_alpha, stripSchemeSep_map_lower]
  cases hs : stripSchemeSep (cs.dropWhile Char.isAlpha) with
  | none => rfl
  | some rest =>
    simp only [Option.map_some']
    rw [takeWhile_map_lower_alpha, isEmpty_map]
    rw [List.takeWhile_map, comp_not_hostEnd_lower, isEmpty_map]
    rw [List.takeWhile_map, comp_bne_colon_lower, isEmpty_map]
    rw [List.dropWhile_map, comp_not_hostEnd_lower]
    rw [List.takeWhile_map, comp_not_pathEnd_lower, isEmpty_map]
    split_ifs <;> simp [lowerParts, lowerChar_slash]

theorem takeWhile_all_append {p : Char → Bool} {l1 l2 : List Char}
    (h : ∀ c ∈ l1, p c = true) :
    (l1 ++ l2).takeWhile p = l1 ++ l2.takeWhile p := by
  rw [List.takeWhile_append, List.takeWhile_eq_self_iff.mpr h, if_pos rfl]

theorem dropWhile_all_append {p : Char → Bool} {l1 l2 : List Char}
    (h : ∀ c ∈ l1, p c = true) :
    (l1 ++ l2).dropWhile p = l2.dropWhile p := by
  rw [List.dropWhile_append, List.dropWhile_eq_nil_iff.mpr h]
  simp

theorem dropWhile_head_false {p : Char → Bool} {a : Char} :
    ∀ {l t : List Char}, l.dropWhile p = a :: t → p a = false := by
  intro l
  induction l with
  | nil => intro t h; cases h
  | cons b l ih =>
    intro t h
    by_cases hb : p b = true
    · rw [List.dropWhile_cons_of_pos hb] at h
      exact ih h
    · rw [List.dropWhile_cons_of_neg hb] at h
      cases h
      simpa using hb

theorem ne_nil_of_not_isEmpty {α : Type} {l : List α} (h : ¬l.isEmpty = true) : l ≠ [] :=
  fun hnil => h (by rw [hnil]; rfl)

theorem hostEnd_not_pathEnd {a : Char} (h1 : hostEnd a = true) (h2 : pathEnd a = false) :
    a = '/' := by
  simp only [hostEnd, pathEnd, Bool.or_eq_true, Bool.or_eq_false_iff, beq_iff_eq,
    beq_eq_false_iff_ne] at h1 h2
  rcases h1 with (h | h) | h
  · exact h
  · exact absurd h h2.1
  · exact absurd h h2.2

/-- Soundness of the parser model: the components of a successful
parse are shaped as the parser guarantees. -/
theorem parseUrl_sound {cs : List Char} {p : UrlParts} (h : parseUrl cs = some p) :
    p.scheme ≠ [] ∧ (∀ c ∈ p.scheme, c.isAlpha = true) ∧
    p.host ≠ [] ∧ (∀ c ∈ p.host, hostEnd c = false) ∧
    p.host.takeWhile (fun c => c != ':') ≠ [] ∧
    p.pathname ≠ [] ∧ p.pathname.head? = some '/' ∧
    (∀ c ∈ p.pathname, pathEnd c = false) := by
  unfold parseUrl at h
  cases hs : stripSchemeSep (cs.dropWhile Char.isAlpha) <;> rw [hs] at h <;> dsimp only at h
  · cases h
  case some rest =>
  split_ifs at h with h1 h2 h3 h4
  · injection h with h5
    subst h5
    refine ⟨?_, ?_, ?_, ?_, ?_, ?_, ?_, ?_⟩
    · exact ne_nil_of_not_isEmpty h1
    · exact fun c hc => List.mem_takeWhile_imp hc
    · exact ne_nil_of_not_isEmpty h2
    · intro c hc
      simpa using List.mem_takeWhile_imp hc
    · exact ne_nil_of_not_isEmpty h3
    · simp
    · rfl
    · intro c hc
      simp only [List.mem_singleton] at hc
      subst hc
      decide
  · injection h with h5
    subst h5
    have hne : List.takeWhile (fun c => !pathEnd c)
        (List.dropWhile (fun c => !hostEnd c) rest) ≠ [] :=
      ne_nil_of_not_isEmpty h4
    obtain ⟨c0, t0, hct⟩ := List.exists_cons_of_ne_nil hne
    have hmem : c0 ∈ List.takeWhile (fun c => !pathEnd c)
        (List.dropWhile (fun c => !hostEnd c) rest) := by
      rw [hct]; exact List.mem_cons_self _ _
    have hpe : pathEnd c0 = false := by
      simpa using List.mem_takeWhile_imp hmem
    have hc0 : c0 = '/' := by
      cases hdd : List.dropWhile (fun c => !hostEnd c) rest with
      | nil => rw [hdd] at hct; cases hct
      | cons a dtl =>
        have hhe : hostEnd a = true := by
          simpa using dropWhile_head_false hdd
        rw [hdd] at hct
        rw [List.takeWhile_cons] at hct
        split_ifs at hct with ha
        injection hct with hc0 _
        subst hc0
        exact hostEnd_not_pathEnd hhe hpe
    refine ⟨?_, ?_, ?_, ?_, ?_, ?_, ?_, ?_⟩
    · exact ne_nil_of_not_isEmpty h1
    · exact fun c hc => List.mem_takeWhile_imp hc
    · exact ne_nil_of_not_isEmpty h2
    · intro c hc
      simpa using List.mem_takeWhile_imp hc
    · exact ne_nil_of_not_isEmpty h3
    · exact hne
    · rw [hct, hc0]; rfl
    · intro c hc
      simpa using List.mem_takeWhile_imp hc

theorem map_lower_urlcat (a b c : List Char) :
    (a ++ ':' :: '/' :: '/' :: (b ++ c)).map lowerChar
      = a.map lowerChar ++ ':' :: '/' :: '/' :: (b.map lowerChar ++ c.map lowerChar) := by
  simp [lowerChar_colon, lowerChar_slash]

/-- Reconstruction: parsing a string rebuilt from well-shaped
components returns exactly those components. -/
theorem parseUrl_reconstruct (scheme host path : List Char)
    (hs : scheme ≠ []) (hsa : ∀ c ∈ scheme, c.isAlpha = true)
    (hh : host ≠ []) (hhe : ∀ c ∈ host, hostEnd c = false)
    (hhn : host.takeWhile (fun c => c != ':') ≠ [])
    (hp : path = [] ∨ (path.head? = some '/' ∧ ∀ c ∈ path, pathEnd c = false)) :
    parseUrl (scheme ++ ':' :: '/' :: '/' :: (host ++ path)) =
      some ⟨scheme, host, if path.isEmpty then ['/'] else path⟩ := by
  have hpathhead : path = [] ∨ ∃ t, path = '/' :: t := by
    rcases hp with h | ⟨h1, _⟩
    · exact Or.inl h
    · right
      cases path with
      | nil => cases h1
      | cons a t => injection h1 with ha; exact ⟨t, by rw [ha]⟩
  have htw : (scheme ++ ':' :: '/' :: '/' :: (host ++ path)).takeWhile Char.isAlpha
      = scheme := by
    rw [takeWhile_all_append hsa, List.takeWhile_cons_of_neg (by decide)]
    simp
  have hdw : (scheme ++ ':' :: '/' :: '/' :: (host ++ path)).dropWhile Char.isAlpha
      = ':' :: '/' :: '/' :: (host ++ path) := by
    rw [dropWhile_all_append hsa, List.dropWhile_cons_of_neg (by decide)]
  have hhost : (host ++ path).takeWhile (fun c => !hostEnd c) = host := by
    rw [takeWhile_all_append (by intro c hc; simp [hhe c hc])]
    rcases hpathhead with h | ⟨t, h⟩ <;> subst h
    · simp
    · rw [List.takeWhile_cons_of_neg (by decide)]
      simp
  have hpath : (host ++ path).dropWhile (fun c => !hostEnd c) = path := by
    rw [dropWhile_all_append (by intro c hc; simp [hhe c hc])]
    rcases hpathhead with h | ⟨t, h⟩ <;> subst h
    · rfl
    · rw [List.dropWhile_cons_of_neg (by decide)]
  unfold parseUrl
  rw [htw, hdw]
  simp only [stripSchemeSep]
  rw [if_neg (by simpa [List.isEmpty_eq_true] using hs), hhost,
    if_neg (by simpa [List.isEmpty_eq_true] using hh),
    if_neg (by simpa [List.isEmpty_eq_true] using hhn), hpath]
  rcases hp with h | ⟨_, h2⟩
  · subst h; rfl
  · rw [List.takeWhile_eq_self_iff.mpr (by intro c hc; simp [h2 c hc])]

/-- Reconstruction after lowercasing: parsing the lowercased rebuilt
address returns the lowercased components. -/
theorem parseUrl_reconstruct_lower (scheme host path : List Char)
    (hs : scheme ≠ []) (hsa : ∀ c ∈ scheme, c.isAlpha = true)
    (hh : host ≠ []) (hhe : ∀ c ∈ host, hostEnd c = false)
    (hhn : host.takeWhile (fun c => c != ':') ≠ [])
    (hp : path = [] ∨ (path.head? = some '/' ∧ ∀ c ∈ path, pathEnd c = false)) :
    parseUrl ((scheme ++ ':' :: '/' :: '/' :: (host ++ path)).map lowerChar) =
      some ⟨scheme.map lowerChar, host.map lowerChar,
            if path.isEmpty then ['/'] else path.map lowerChar⟩ := by
  rw [map_lower_urlcat]
  rw [parseUrl_reconstruct (scheme.map lowerChar) (host.map lowerChar) (path.map lowerChar)
    (fun h => hs (List.map_eq_nil.mp h))
    (by
      intro c hc
      obtain ⟨d, hd, rfl⟩ := List.mem_map.mp hc
      rw [isAlpha_lowerChar]
      exact hsa d hd)
    (fun h => hh (List.map_eq_nil.mp h))
    (by
      intro c hc
      obtain ⟨d, hd, rfl⟩ := List.mem_map.mp hc
      rw [hostEnd_lowerChar]
      exact hhe d hd)
    (by
      rw [List.takeWhile_map, comp_bne_colon_lower]
      exact fun h => hhn (List.map_eq_nil.mp h))
    (by
      rcases hp with h | ⟨h1, h2⟩
      · left; rw [h]; rfl
      · right
        constructor
        · rw [List.head?_map, h1]
          rfl
        · intro c hc
          obtain ⟨d, hd, rfl⟩ := List.mem_map.mp hc
          rw [pathEnd_lowerChar]
          exact h2 d hd)]
  rw [isEmpty_map]

/-! ## Idempotence analysis of normalizeUrl -/

theorem normalizeUrl_parse_none (x : String) (hp : parseUrl x.data = none) :
    normalizeUrl x = ⟨x.data.map lowerChar⟩ := by
  unfold normalizeUrl
  rw [hp]
  rfl

theorem normalizeUrl_parse_some (x : String) {p : UrlParts} (hp : parseUrl x.data = some p) :
    normalizeUrl x =
      ⟨(if (p.scheme ++ ':' :: '/' :: '/' :: (p.host ++ p.pathname)).getLast? = some '/' ∧
            1 < (p.scheme ++ ':' :: '/' :: '/' :: (p.host ++ p.pathname)).length
          then (p.scheme ++ ':' :: '/' :: '/' :: (p.host ++ p.pathname)).dropLast
          else p.scheme ++ ':' :: '/' :: '/' :: (p.host ++ p.pathname)).map lowerChar⟩ := by
  unfold normalizeUrl
  rw [hp]

theorem urlcat_getLast (a b c : List Char) (hc : c ≠ []) :
    (a ++ ':' :: '/' :: '/' :: (b ++ c)).getLast? = c.getLast? := by
  have h1 : ':' :: '/' :: '/' :: (b ++ c) = [':', '/', '/'] ++ (b ++ c) := rfl
  rw [h1, ← List.append_assoc,
    List.getLast?_append_of_ne_nil _ (List.append_ne_nil_of_right_ne_nil b hc),
    List.getLast?_append_of_ne_nil _ hc]

theorem urlcat_dropLast (a b c : List Char) (hc : c ≠ []) :
    (a ++ ':' :: '/' :: '/' :: (b ++ c)).dropLast = a ++ ':' :: '/' :: '/' :: (b ++ c.dropLast) := by
  have h1 : ':' :: '/' :: '/' :: (b ++ c) = [':', '/', '/'] ++ (b ++ c) := rfl
  rw [h1, ← List.append_assoc,
    List.dropLast_append_of_ne_nil _ (List.append_ne_nil_of_right_ne_nil b hc),
    List.dropLast_append_of_ne_nil _ hc]
  simp [List.append_assoc]

theorem urlcat_length (a b c : List Char) :
    1 < (a ++ ':' :: '/' :: '/' :: (b ++ c)).length := by
  simp [List.length_append]
  omega

/-- Core idempotence lemma: whenever the normalized address does not
retain a trailing slash, a second normalization leaves it unchanged. -/
theorem normalizeUrl_idem_core (x : String)
    (hx : (normalizeUrl x).data.getLast? ≠ some '/') :
    normalizeUrl (normalizeUrl x) = normalizeUrl x := by
  cases hp : parseUrl x.data with
  | none =>
    have h0 := normalizeUrl_parse_none x hp
    rw [h0]
    have h1 : parseUrl ((⟨x.data.map lowerChar⟩ : String).data) = none := by
      show parseUrl (x.data.map lowerChar) = none
      rw [parseUrl_map_lower, hp]
      rfl
    rw [normalizeUrl_parse_none _ h1]
    show (⟨(x.data.map lowerChar).map lowerChar⟩ : String) = _
    rw [map_lowerChar_idem]
  | some p =>
    obtain ⟨hs, hsa, hh, hhe, hhn, hpne, hphead, hppe⟩ := parseUrl_sound hp
    have h0 := normalizeUrl_parse_some x hp
    by_cases hcond : (p.scheme ++ ':' :: '/' :: '/' :: (p.host ++ p.pathname)).getLast? = some '/' ∧
        1 < (p.scheme ++ ':' :: '/' :: '/' :: (p.host ++ p.pathname)).length
    · rw [if_pos hcond] at h0
      rw [urlcat_dropLast _ _ _ hpne] at h0
      by_cases hq : p.pathname.dropLast = []
      · rw [hq] at h0
        have hparse : parseUrl ((normalizeUrl x).data) =
            some ⟨p.scheme.map lowerChar, p.host.map lowerChar, ['/']⟩ := by
          rw [h0]
          show parseUrl ((p.scheme ++ ':' :: '/' :: '/' :: (p.host ++ ([] : List Char))).map lowerChar) = _
          rw [parseUrl_reconstruct_lower p.scheme p.host [] hs hsa hh hhe hhn (Or.inl rfl)]
          rfl
        have h2 := normalizeUrl_parse_some (normalizeUrl x) hparse
        rw [if_pos ⟨by rw [urlcat_getLast _ _ _ (by simp)]; rfl, urlcat_length _ _ _⟩] at h2
        rw [urlcat_dropLast _ _ _ (by simp)] at h2
        rw [h2, h0]
        congr 1
        simp [map_lower_urlcat, map_lowerChar_idem, comp_lowerChar_lowerChar, lowerChar_colon, lowerChar_slash]
      · have hqhead : (p.pathname.dropLast).head? = some '/' := by
          obtain ⟨c0, t, hct⟩ := List.exists_cons_of_ne_nil hpne
          have hc0 : c0 = '/' := by
            rw [hct] at hphead
            simpa using hphead
          cases t with
          | nil =>
            exact absurd (by rw [hct]; rfl) hq
          | cons t1 ts =>
            rw [hct, List.dropLast_cons_of_ne_nil (by simp), List.head?_cons, hc0]
        have hqpe : ∀ c ∈ p.pathname.dropLast, pathEnd c = false :=
          fun c hc => hppe c (List.mem_of_mem_dropLast hc)
        have hparse : parseUrl ((normalizeUrl x).data) =
            some ⟨p.scheme.map lowerChar, p.host.map lowerChar,
                  (p.pathname.dropLast).map lowerChar⟩ := by
          rw [h0]
          show parseUrl ((p.scheme ++ ':' :: '/' :: '/' :: (p.host ++ p.pathname.dropLast)).map lowerChar) = _
          rw [parseUrl_reconstruct_lower p.scheme p.host _ hs hsa hh hhe hhn (Or.inr ⟨hqhead, hqpe⟩)]
          rw [if_neg (by simpa [List.isEmpty_eq_true] using hq)]
        have h2 := normalizeUrl_parse_some (normalizeUrl x) hparse
        have hqm : (p.pathname.dropLast).map lowerChar ≠ [] :=
          fun hnil => hq (List.map_eq_nil.mp hnil)
        have hlast1 : (p.scheme.map lowerChar ++ ':' :: '/' :: '/' ::
            (p.host.map lowerChar ++ (p.pathname.dropLast).map lowerChar)).getLast? ≠ some '/' := by
          rw [urlcat_getLast _ _ _ hqm]
          intro hcontra
          apply hx
          rw [h0]
          show ((p.scheme ++ ':' :: '/' :: '/' :: (p.host ++ p.pathname.dropLast)).map lowerChar).getLast? = some '/'
          rw [map_lower_urlcat, urlcat_getLast _ _ _ hqm]
          exact hcontra
        rw [if_neg (fun hcc => hlast1 hcc.1)] at h2
        rw [h2, h0]
        congr 1
        simp [map_lower_urlcat, map_lowerChar_idem, comp_lowerChar_lowerChar, lowerChar_colon, lowerChar_slash]
    · rw [if_neg hcond] at h0
      have hparse : parseUrl ((normalizeUrl x).data) =
          some ⟨p.scheme.map lowerChar, p.host.map lowerChar, p.pathname.map lowerChar⟩ := by
        rw [h0]
        show parseUrl ((p.scheme ++ ':' :: '/' :: '/' :: (p.host ++ p.pathname)).map lowerChar) = _
        rw [parseUrl_reconstruct_lower p.scheme p.host _ hs hsa hh hhe hhn (Or.inr ⟨hphead, hppe⟩)]
        rw [if_neg (by simpa [List.isEmpty_eq_true] using hpne)]
      have h2 := normalizeUrl_parse_some (normalizeUrl x) hparse
      have hpm : p.pathname.map lowerChar ≠ [] :=
        fun hnil => hpne (List.map_eq_nil.mp hnil)
      have hlast1 : (p.scheme.map lowerChar ++ ':' :: '/' :: '/' ::
          (p.host.map lowerChar ++ p.pathname.map lowerChar)).getLast? ≠ some '/' := by
        rw [urlcat_getLast _ _ _ hpm]
        intro hcontra
        apply hx
        rw [h0]
        show ((p.scheme ++ ':' :: '/' :: '/' :: (p.host ++ p.pathname)).map lowerChar).getLast? = some '/'
        rw [map_lower_urlcat, urlcat_getLast _ _ _ hpm]
        exact hcontra
      rw [if_neg (fun hcc => hlast1 hcc.1)] at h2
      rw [h2, h0]
      congr 1
      simp [map_lower_urlcat, map_lowerChar_idem, comp_lowerChar_lowerChar, lowerChar_colon, lowerChar_slash]

/-! ## Lemmas about single attempts and the fallback loop -/

/-- A successful attempt records the requested address in its clip. -/
theorem attemptCrawl_ok_url {web : Web} {url name : String} {inc : Bool}
    {clip : ClipResult} {links : List ExtractedLink}
    (h : attemptCrawl web url name inc = .ok (clip, links)) : clip.url = url := by
  unfold attemptCrawl at h
  cases hf : web.fetch url name <;> rw [hf] at h <;> dsimp only at h
  · cases h
  case ok resp =>
    split_ifs at h with h1 h2
    cases hd : web.defuddle resp.body with
    | none => rw [hd] at h; cases h
    | some r =>
      rw [hd] at h
      dsimp only at h
      cases hc : r.content with
      | none => rw [hc] at h; cases h
      | some c =>
        rw [hc] at h
        dsimp only at h
        split_ifs at h with h3 h4
        injection h with h5
        injection h5 with h6 h7
        rw [← h6]

/-- A successful fallback outcome records the requested address. -/
theorem crawlWithFallbackGo_ok_url {web : Web} {url : String} {inc : Bool} :
    ∀ {l : List (String × String)} {att a : List String} {clip : ClipResult}
      {links : List ExtractedLink},
    crawlWithFallbackGo web url inc att l = .ok clip links a → clip.url = url := by
  intro l
  induction l with
  | nil => intro att a clip links h; cases h
  | cons s rest ih =>
    intro att a clip links h
    unfold crawlWithFallbackGo at h
    cases ha : attemptCrawl web url s.1 inc <;> rw [ha] at h
    case error m =>
      dsimp only at h
      split_ifs at h
      all_goals first
        | cases h
        | exact ih h
        | exact ih h.symm
    case ok pr =>
      obtain ⟨c, ls⟩ := pr
      dsimp only at h
      injection h with h1 h2 h3
      subst h1
      exact attemptCrawl_ok_url ha

theorem crawlWithFallback_ok_url {web : Web} {cfg : CrawlConfig} {url : String}
    {att : List String} {clip : ClipResult} {links : List ExtractedLink}
    (h : crawlWithFallback web cfg url = .ok clip links att) : clip.url = url :=
  crawlWithFallbackGo_ok_url h

/-- When every strategy of a non-empty list fails, the fallback loop
fails with the names of all of them appended in order. -/
theorem crawlWithFallbackGo_all_fail (web : Web) (url : String) (inc : Bool) :
    ∀ (l : List (String × String)) (att : List String), l ≠ [] →
    (∀ s ∈ l, attemptFails web url s.1 inc = true) →
    ∃ err, crawlWithFallbackGo web url inc att l = .fail err (att ++ l.map Prod.fst) := by
  intro l
  induction l with
  | nil => intro att h; exact absurd rfl h
  | cons s rest ih =>
    intro att _ hall
    have hs := hall s (List.mem_cons_self _ _)
    unfold attemptFails at hs
    cases ha : attemptCrawl web url s.1 inc <;> rw [ha] at hs
    case ok pr => cases hs
    case error m =>
      simp only [crawlWithFallbackGo, ha]
      cases hrest : rest with
      | nil => exact ⟨m, by simp⟩
      | cons r rs =>
        subst hrest
        rw [if_neg (by simp)]
        obtain ⟨err, he⟩ := ih (att ++ [s.1]) (by simp)
          (fun t ht => hall t (List.mem_cons_of_mem _ ht))
        exact ⟨err, by rw [he]; simp⟩

/-- A non-2xx response makes the attempt fail. -/
theorem attemptFails_of_non2xx {web : Web} {url name : String} {inc : Bool}
    (h : fetchNon2xx web url name = true) : attemptFails web url name inc = true := by
  unfold fetchNon2xx at h
  unfold attemptFails attemptCrawl
  cases hf : web.fetch url name <;> rw [hf] at h <;> dsimp only at h ⊢
  case ok resp =>
    rw [if_pos (by simpa using h)]

/-- A fetched HTML page on which extraction fails makes the attempt
fail. -/
theorem attemptFails_of_extractFails {web : Web} {url name : String} {inc : Bool}
    (h : fetchOkExtractFails web url name inc = true) :
    attemptFails web url name inc = true := by
  unfold fetchOkExtractFails at h
  unfold attemptFails attemptCrawl
  cases hf : web.fetch url name <;> rw [hf] at h <;> dsimp only at h ⊢
  case ok resp =>
    simp only [Bool.and_eq_true] at h
    obtain ⟨⟨hok, hct⟩, hrest⟩ := h
    rw [if_neg (by simp [hok]), if_neg (by simp [hct])]
    cases hd : web.defuddle resp.body with
    | none => rfl
    | some r =>
      rw [hd] at hrest
      dsimp only at hrest ⊢
      cases hc : r.content with
      | none => rfl
      | some c =>
        rw [hc] at hrest
        dsimp only at hrest ⊢
        simp only [Bool.or_eq_true, beq_iff_eq, decide_eq_true_eq] at hrest
        rcases hrest with hc0 | hshort
        · rw [if_pos (by simp [hc0])]
        · by_cases hc0 : (c == "") = true
          · rw [if_pos hc0]
          · rw [if_neg hc0, if_pos (by simpa using hshort)]

/-! ## Lemmas about the orchestrator loop -/

/-- The entry produced by findNext was not yet visited. -/
theorem findNext_not_visited {cfg : CrawlConfig} {sd : String} {visited : List String} :
    ∀ {q : List (String × Nat)} {url : String} {depth : Nat} {rest : List (String × Nat)},
    findNext cfg sd visited q = some ((url, depth), rest) → url ∉ visited := by
  intro q
  induction q with
  | nil => intro url depth rest h; cases h
  | cons e q ih =>
    intro url depth rest h
    obtain ⟨u, d⟩ := e
    unfold findNext at h
    split_ifs at h with h1 h2
    · exact ih h
    · exact ih h
    · injection h with h3
      injection h3 with h4 h5
      injection h4 with h6 h7
      subst h6
      simp only [Bool.or_eq_true, not_or] at h1
      intro hmem
      apply h1.1
      simpa using hmem

/-- Each processed page adds exactly one record. -/
theorem crawlStep_count (web : Web) (cfg : CrawlConfig) (s : CrawlState)
    (url : String) (depth : Nat) (rest : List (String × Nat)) :
    processedCount (crawlStep web cfg s url depth rest) = processedCount s + 1 := by
  unfold crawlStep processedCount
  cases crawlWithFallback web cfg url <;> simp <;> omega

/-- The loop consumes at most its budget, and it stops exactly when
the queue has drained or the budget is spent. -/
theorem crawlLoop_budget (web : Web) (cfg : CrawlConfig) (sd : String) :
    ∀ (b : Nat) (s : CrawlState),
    processedCount (crawlLoop web cfg sd b s) ≤ processedCount s + b ∧
    ((crawlLoop web cfg sd b s).queue = [] ∨
      processedCount (crawlLoop web cfg sd b s) = processedCount s + b) := by
  intro b
  induction b with
  | zero =>
    intro s
    exact ⟨Nat.le_refl _, Or.inr rfl⟩
  | succ b ih =>
    intro s
    unfold crawlLoop
    cases hf : findNext cfg sd s.visited s.queue with
    | none => exact ⟨by simp [processedCount], Or.inl rfl⟩
    | some pr =>
      obtain ⟨⟨url, depth⟩, rest⟩ := pr
      dsimp only
      obtain ⟨ih1, ih2⟩ := ih (crawlStep web cfg s url depth rest)
      rw [crawlStep_count] at ih1 ih2
      refine ⟨by omega, ?_⟩
      rcases ih2 with h | h
      · exact Or.inl h
      · exact Or.inr (by omega)

/-- The step preserves the bookkeeping invariant. -/
theorem crawlStep_inv {web : Web} {cfg : CrawlConfig} {s : CrawlState}
    {url : String} {depth : Nat} {rest : List (String × Nat)}
    (hv : url ∉ s.visited) (h : StateInv s) :
    StateInv (crawlStep web cfg s url depth rest) := by
  obtain ⟨hnd, hiff⟩ := h
  have hrec : url ∉ recordedUrls s := fun hm => hv ((hiff url).mpr hm)
  unfold crawlStep
  cases hcw : crawlWithFallback web cfg url with
  | ok data links att =>
    have hdu : data.url = url := crawlWithFallback_ok_url hcw
    constructor
    · show ((s.success ++ [data]).map ClipResult.url ++ s.failed.map CrawlFailure.url).Nodup
      have heq : (s.success ++ [data]).map ClipResult.url ++ s.failed.map CrawlFailure.url
          = s.success.map ClipResult.url ++ data.url :: s.failed.map CrawlFailure.url := by
        simp
      rw [heq, hdu, List.nodup_middle, List.nodup_cons]
      exact ⟨hrec, hnd⟩
    · intro u
      show u ∈ s.visited ++ [url] ↔
        u ∈ (s.success ++ [data]).map ClipResult.url ++ s.failed.map CrawlFailure.url
      have h0 := hiff u
      simp only [recordedUrls, List.mem_append] at h0
      simp only [List.map_append, List.mem_append, List.mem_singleton, List.map_cons,
        List.map_nil, List.mem_cons, List.not_mem_nil, or_false, hdu]
      tauto
  | fail err att =>
    constructor
    · show (s.success.map ClipResult.url ++
        (s.failed ++ [(⟨url, err, att, depth⟩ : CrawlFailure)]).map CrawlFailure.url).Nodup
      have heq : s.success.map ClipResult.url ++
          (s.failed ++ [(⟨url, err, att, depth⟩ : CrawlFailure)]).map CrawlFailure.url
          = (s.success.map ClipResult.url ++ s.failed.map CrawlFailure.url) ++ [url] := by
        simp
      rw [heq, List.nodup_append]
      refine ⟨hnd, by simp, ?_⟩
      intro a ha hb
      simp only [List.mem_singleton] at hb
      subst hb
      exact hrec ha
    · intro u
      show u ∈ s.visited ++ [url] ↔ u ∈ s.success.map ClipResult.url ++
        (s.failed ++ [(⟨url, err, att, depth⟩ : CrawlFailure)]).map CrawlFailure.url
      have h0 := hiff u
      simp only [recordedUrls, List.mem_append] at h0
      simp only [List.map_append, List.mem_append, List.mem_singleton, List.map_cons,
        List.map_nil, List.mem_cons, List.not_mem_nil, or_false]
      tauto

/-- The loop preserves the bookkeeping invariant. -/
theorem crawlLoop_inv (web : Web) (cfg : CrawlConfig) (sd : String) :
    ∀ (b : Nat) (s : CrawlState), StateInv s → StateInv (crawlLoop web cfg sd b s) := by
  intro b
  induction b with
  | zero => intro s h; exact h
  | succ b ih =>
    intro s h
    unfold crawlLoop
    cases hf : findNext cfg sd s.visited s.queue with
    | none => exact h
    | some pr =>
      obtain ⟨⟨url, depth⟩, rest⟩ := pr
      exact ih _ (crawlStep_inv (findNext_not_visited hf) h)

theorem crawlLoop_succ (web : Web) (cfg : CrawlConfig) (sd : String) (b : Nat) (s : CrawlState) :
    crawlLoop web cfg sd (b + 1) s =
      match findNext cfg sd s.visited s.queue with
      | none => { s with queue := [] }
      | some ((url, depth), rest) => crawlLoop web cfg sd b (crawlStep web cfg s url depth rest) :=
  rfl

theorem crawlLoop_empty_queue (web : Web) (cfg : CrawlConfig) (sd : String) (b : Nat)
    (s : CrawlState) (h : s.queue = []) : crawlLoop web cfg sd b s = s := by
  cases b with
  | zero => rfl
  | succ b =>
    rw [crawlLoop_succ, h]
    show { s with queue := [] } = s
    cases s with
    | mk v q su f =>
      simp only at h
      rw [h]

/-! ## Claim theorems -/

/-- C1: throughout every invocation of crawlRecursively the combined
length of the success and failed lists never exceeds maxPages — after
any number b of page budget steps the combined count is at most b, and
at the full budget it is at most maxPages; the loop stops exactly when
the queue is empty or the bound is reached; and with maxPages = 1 a
crawl of a page carrying ten outbound links processes exactly one
page. -/
theorem crawl_budget_respected (web : Web) (cfg : CrawlConfig) (startUrl : String) :
    (∀ b : Nat,
      processedCount (crawlLoop web cfg (extractDomain startUrl) b (initState startUrl)) ≤ b) ∧
    (crawlRecursively web cfg startUrl).success.length
      + (crawlRecursively web cfg startUrl).failed.length ≤ cfg.maxPages ∧
    ((crawlLoop web cfg (extractDomain startUrl) cfg.maxPages (initState startUrl)).queue = [] ∨
      processedCount (crawlLoop web cfg (extractDomain startUrl) cfg.maxPages (initState startUrl))
        = cfg.maxPages) ∧
    (crawlRecursively webTenLinks { DEFAULTS with maxPages := 1 } "https://a.test/x").success.length
      = 1 ∧
    (crawlRecursively webTenLinks { DEFAULTS with maxPages := 1 } "https://a.test/x").failed.length
      = 0 := by
  have hb := crawlLoop_budget web cfg (extractDomain startUrl)
  refine ⟨?_, ?_, ?_, by decide, by decide⟩
  · intro b
    have := (hb b (initState startUrl)).1
    simpa [processedCount, initState] using this
  · have := (hb cfg.maxPages (initState startUrl)).1
    simpa [processedCount, initState] using this
  · rcases (hb cfg.maxPages (initState startUrl)).2 with h | h
    · exact Or.inl h
    · right
      simpa [processedCount, initState] using h

/-- C2: in every run, no normalized address is recorded more than once
across the success and failed lists combined — the recorded address
lists are pairwise distinct, so an address appears in the success
list, in the failure list, or in neither, never in both and never
twice. -/
theorem crawl_at_most_once_visitation (web : Web) (cfg : CrawlConfig) (startUrl : String) :
    ((crawlRecursively web cfg startUrl).success.map ClipResult.url ++
     (crawlRecursively web cfg startUrl).failed.map CrawlFailure.url).Nodup := by
  have h := crawlLoop_inv web cfg (extractDomain startUrl) cfg.maxPages (initState startUrl)
    ⟨by simp [recordedUrls, initState], by intro u; simp [recordedUrls, initState]⟩
  exact h.1

/-- C10: the visitedUrls list of a finished crawl contains exactly
the addresses recorded in the success and failed lists: membership in
the visited set is equivalent to membership in one of the two output
lists. -/
theorem crawl_visited_equals_recorded (web : Web) (cfg : CrawlConfig) (startUrl : String)
    (u : String) :
    u ∈ (crawlRecursively web cfg startUrl).visitedUrls ↔
      (u ∈ (crawlRecursively web cfg startUrl).success.map ClipResult.url ∨
       u ∈ (crawlRecursively web cfg startUrl).failed.map CrawlFailure.url) := by
  have h := (crawlLoop_inv web cfg (extractDomain startUrl) cfg.maxPages (initState startUrl)
    ⟨by simp [recordedUrls, initState], by intro u; simp [recordedUrls, initState]⟩).2 u
  simpa [recordedUrls] using h

/-- With a zero depth budget the loop started on a single depth-zero
entry processes at most that entry and visits no other address. -/
theorem crawlLoop_depth0 (web : Web) (cfg : CrawlConfig) (sd u : String) (b : Nat)
    (hmd : cfg.maxDepth = 0) :
    (crawlLoop web cfg sd b ⟨[], [(u, 0)], [], []⟩).success.length
      + (crawlLoop web cfg sd b ⟨[], [(u, 0)], [], []⟩).failed.length ≤ 1 ∧
    ((crawlLoop web cfg sd b ⟨[], [(u, 0)], [], []⟩).visited = [] ∨
     (crawlLoop web cfg sd b ⟨[], [(u, 0)], [], []⟩).visited = [u]) := by
  cases b with
  | zero => exact ⟨by simp [crawlLoop], Or.inl rfl⟩
  | succ m =>
    rw [crawlLoop_succ]
    dsimp only
    by_cases hsc : shouldCrawl u sd cfg = true
    · have hfn : findNext cfg sd ([] : List String) [(u, 0)] = some ((u, 0), []) := by
        simp [findNext, hsc, hmd]
      rw [hfn]
      dsimp only
      cases hcw : crawlWithFallback web cfg u with
      | ok data links att =>
        have hstep : crawlStep web cfg ⟨[], [(u, 0)], [], []⟩ u 0 [] =
            ⟨[u], [], [data], []⟩ := by
          unfold crawlStep
          rw [hcw]
          simp [hmd]
        rw [hstep, crawlLoop_empty_queue _ _ _ _ _ rfl]
        exact ⟨by simp, Or.inr rfl⟩
      | fail err att =>
        have hstep : crawlStep web cfg ⟨[], [(u, 0)], [], []⟩ u 0 [] =
            ⟨[u], [], [], [⟨u, err, att, 0⟩]⟩ := by
          unfold crawlStep
          rw [hcw]
          simp
        rw [hstep, crawlLoop_empty_queue _ _ _ _ _ rfl]
        exact ⟨by simp, Or.inr rfl⟩
    · have hfn : findNext cfg sd ([] : List String) [(u, 0)] = none := by
        simp [findNext, hsc, hmd]
      rw [hfn]
      exact ⟨by simp, Or.inl rfl⟩

/-- C9: with maxDepth = 0 only the start address is ever fetched: at
most one page is processed and the visited set is empty or exactly the
normalized start address, because links are enqueued only when the
current depth is strictly below maxDepth. -/
theorem depth_zero_only_start (web : Web) (cfg : CrawlConfig) (startUrl : String) :
    (crawlRecursively web { cfg with maxDepth := 0 } startUrl).success.length
      + (crawlRecursively web { cfg with maxDepth := 0 } startUrl).failed.length ≤ 1 ∧
    ((crawlRecursively web { cfg with maxDepth := 0 } startUrl).visitedUrls = [] ∨
     (crawlRecursively web { cfg with maxDepth := 0 } startUrl).visitedUrls
       = [normalizeUrl startUrl]) := by
  have h := crawlLoop_depth0 web { cfg with maxDepth := 0 } (extractDomain startUrl)
    (normalizeUrl startUrl) ({ cfg with maxDepth := 0 } : CrawlConfig).maxPages rfl
  exact ⟨h.1, h.2⟩

/-- C4 as amended: a successful fetch-strategy attempt yields the
extracted page, but the address stored in the produced record is the
originally requested address, not the redirect-resolved final address
of the response. -/
theorem attempt_records_requested_url (web : Web) (url name : String) (inc : Bool) :
    attemptUrlOf (attemptCrawl web url name inc) = none ∨
    attemptUrlOf (attemptCrawl web url name inc) = some url := by
  cases ha : attemptCrawl web url name inc with
  | error m => exact Or.inl rfl
  | ok pr =>
    right
    obtain ⟨c, ls⟩ := pr
    show some c.url = some url
    rw [attemptCrawl_ok_url ha]

/-- C4 counterexample: a fetch whose response reports a different
final address after redirects still yields a record carrying the
requested address, refuting the claim that the record's address field
is the post-redirect final address. -/
theorem attempt_final_url_cex :
    respUrlOf (webRedirect.fetch "https://start.test/a" "default")
      = some "https://final.test/landed" ∧
    attemptUrlOf (attemptCrawl webRedirect "https://start.test/a" "default" false)
      = some "https://start.test/a" ∧
    ("https://start.test/a" : String) ≠ "https://final.test/landed" := by decide

/-- Common core of the exhaustion claims: when every strategy to try
fails, the fallback returns a failure whose attempted list is the full
strategy-name list in the order tried. -/
theorem crawlWithFallback_all_fail {web : Web} {cfg : CrawlConfig} {url : String}
    (h1 : cfg.useFallback = true)
    (hall : ∀ s ∈ strategiesToTry true, attemptFails web url s.1 cfg.includeImages = true) :
    (crawlWithFallback web cfg url).isFail = true ∧
    (crawlWithFallback web cfg url).attempted = strategyNames true := by
  unfold crawlWithFallback
  rw [h1]
  obtain ⟨err, he⟩ := crawlWithFallbackGo_all_fail web url cfg.includeImages
    (strategiesToTry true) [] (by simp [strategiesToTry, strategies]) hall
  rw [he]
  exact ⟨rfl, rfl⟩

/-- C3 as amended: when the fetch of an address succeeds with an HTML
response but content extraction fails, the failure is caught like any
other attempt failure, so every remaining strategy is retried; when
this happens for all five strategies the run records a CrawlFailure
whose attemptedStrategyNames is the full five-name list — never empty
or partial — and the run continues to the following frontier entries
(shown on a concrete site where the first linked page always fails
extraction and the next page is still crawled). -/
theorem extraction_failure_exhausts_strategies (web : Web) (cfg : CrawlConfig) (url : String)
    (h1 : cfg.useFallback = true)
    (h2 : (strategyNames true).all
      (fun n => fetchOkExtractFails web url n cfg.includeImages) = true) :
    ((crawlWithFallback web cfg url).isFail = true ∧
     (crawlWithFallback web cfg url).attempted = strategyNames true) ∧
    (crawlRecursively webExtractFail DEFAULTS "https://c.test/start").failed =
      [⟨"https://c.test/p1", "콘텐츠 추출 실패", strategyNames true, 1⟩] ∧
    (crawlRecursively webExtractFail DEFAULTS "https://c.test/start").success.map ClipResult.url =
      ["https://c.test/start", "https://c.test/p2"] := by
  refine ⟨?_, by decide, by decide⟩
  apply crawlWithFallback_all_fail h1
  intro s hs
  apply attemptFails_of_extractFails
  exact List.all_eq_true.mp h2 s.1 (List.mem_map_of_mem Prod.fst hs)

/-- C3 counterexample: on an address whose fetch succeeds but whose
extraction fails, the recorded attempted-strategy list has length
five — all strategies — contradicting the claim that it is empty or
strictly shorter than the strategy count. -/
theorem extraction_failure_partial_cex :
    fetchOkExtractFails webExtractFail "https://c.test/p1" "default" false = true ∧
    crawlWithFallback webExtractFail DEFAULTS "https://c.test/p1" =
      .fail "콘텐츠 추출 실패" (strategyNames true) ∧
    ¬((strategyNames true).length < 5 ∨ strategyNames true = []) := by decide

theorem extraction_failure_exhausts_witness :
    DEFAULTS.useFallback = true ∧
    (strategyNames true).all
      (fun n => fetchOkExtractFails webExtractFail "https://c.test/p1" n DEFAULTS.includeImages)
      = true ∧
    (((crawlWithFallback webExtractFail DEFAULTS "https://c.test/p1").isFail = true ∧
      (crawlWithFallback webExtractFail DEFAULTS "https://c.test/p1").attempted
        = strategyNames true) ∧
     (crawlRecursively webExtractFail DEFAULTS "https://c.test/start").failed =
       [⟨"https://c.test/p1", "콘텐츠 추출 실패", strategyNames true, 1⟩] ∧
     (crawlRecursively webExtractFail DEFAULTS "https://c.test/start").success.map ClipResult.url =
       ["https://c.test/start", "https://c.test/p2"]) :=
  ⟨rfl, by decide,
    extraction_failure_exhausts_strategies webExtractFail DEFAULTS "https://c.test/p1" rfl
      (by decide)⟩

/-- C5 as amended: if fallback is enabled and all five strategies
fail for an address (for example all non-2xx), the CrawlFailure lists
exactly five strategy names in the order tried: default (Chrome on
Windows), then chrome-mac (the alternate-OS profile), then firefox
(the alternate-browser profile), then mobile, then googlebot (the
declared-crawler profile) — the alternate-OS profile precedes the
alternate-browser profile — and the run continues to the next frontier
entry (shown on a concrete site where the first linked page answers
403 on every strategy and the next page is still crawled). -/
theorem fallback_exhaustion_order (web : Web) (cfg : CrawlConfig) (url : String)
    (h1 : cfg.useFallback = true)
    (h2 : (strategyNames true).all (fun n => fetchNon2xx web url n) = true) :
    ((crawlWithFallback web cfg url).isFail = true ∧
     (crawlWithFallback web cfg url).attempted
       = ["default", "chrome-mac", "firefox", "mobile", "googlebot"] ∧
     (crawlWithFallback web cfg url).attempted.length = 5) ∧
    (crawlRecursively webForbidden DEFAULTS "https://d.test/start").failed =
      [⟨"https://d.test/p1", "HTTP 403: Forbidden",
        ["default", "chrome-mac", "firefox", "mobile", "googlebot"], 1⟩] ∧
    (crawlRecursively webForbidden DEFAULTS "https://d.test/start").success.map ClipResult.url =
      ["https://d.test/start", "https://d.test/p2"] := by
  refine ⟨?_, by decide, by decide⟩
  have h := crawlWithFallback_all_fail h1 (fun s hs =>
    attemptFails_of_non2xx (List.all_eq_true.mp h2 s.1 (List.mem_map_of_mem Prod.fst hs)))
  obtain ⟨ha, hb⟩ := h
  refine ⟨ha, ?_, ?_⟩
  · rw [hb]; rfl
  · rw [hb]; rfl

/-- C5 counterexample: the strategies are tried in the source order
default, chrome-mac, firefox, mobile, googlebot — the second user
agent is Chrome on macOS (the alternate-OS profile) and the third is
Firefox (the alternate-browser profile) — so the recorded list does
not match the claimed order in which the alternate-browser profile
comes before the alternate-OS profile. -/
theorem fallback_order_cex :
    (crawlWithFallback webForbidden DEFAULTS "https://d.test/p1").attempted =
      ["default", "chrome-mac", "firefox", "mobile", "googlebot"] ∧
    strategies.get? 1 = some ("chrome-mac", uaChromeMac) ∧
    strategies.get? 2 = some ("firefox", uaFirefox) ∧
    (crawlWithFallback webForbidden DEFAULTS "https://d.test/p1").attempted ≠
      ["default", "firefox", "chrome-mac", "mobile", "googlebot"] := by decide

theorem fallback_exhaustion_witness :
    DEFAULTS.useFallback = true ∧
    (strategyNames true).all (fun n => fetchNon2xx webForbidden "https://d.test/p1" n) = true ∧
    (((crawlWithFallback webForbidden DEFAULTS "https://d.test/p1").isFail = true ∧
      (crawlWithFallback webForbidden DEFAULTS "https://d.test/p1").attempted
        = ["default", "chrome-mac", "firefox", "mobile", "googlebot"] ∧
      (crawlWithFallback webForbidden DEFAULTS "https://d.test/p1").attempted.length = 5) ∧
     (crawlRecursively webForbidden DEFAULTS "https://d.test/start").failed =
       [⟨"https://d.test/p1", "HTTP 403: Forbidden",
         ["default", "chrome-mac", "firefox", "mobile", "googlebot"], 1⟩] ∧
     (crawlRecursively webForbidden DEFAULTS "https://d.test/start").success.map ClipResult.url =
       ["https://d.test/start", "https://d.test/p2"]) :=
  ⟨rfl, by decide,
    fallback_exhaustion_order webForbidden DEFAULTS "https://d.test/p1" rfl (by decide)⟩

/-- C6 as amended: the markup-to-text normalization converts headings
h1 through h4 to markdown prefixes; h5 and h6 have no heading rule
and merely lose their tags to the generic tag-stripping pass; entity
decoding covers the named entities and decimal numeric references but
leaves hexadecimal references untouched. -/
theorem markdown_headings_and_entities :
    htmlToMarkdown "<h1>T</h1>" false = "# T" ∧
    htmlToMarkdown "<h2>T</h2>" false = "## T" ∧
    htmlToMarkdown "<h3>T</h3>" false = "### T" ∧
    htmlToMarkdown "<h4>T</h4>" false = "#### T" ∧
    htmlToMarkdown "<h5>T</h5>" false = "T" ∧
    htmlToMarkdown "<h6>T</h6>" false = "T" ∧
    decodeHtmlEntities "&amp;" = "&" ∧
    decodeHtmlEntities "&lt;" = "<" ∧
    decodeHtmlEntities "&#65;" = "A" ∧
    decodeHtmlEntities "&#x41;" = "&#x41;" := by decide

/-- C6 counterexample: h5 headings are not converted to markdown and
hexadecimal character references are not decoded, refuting the
claimed h1..h6 coverage and the claimed hex decoding. -/
theorem markdown_h5_hex_cex :
    htmlToMarkdown "<h5>T</h5>" false ≠ "##### T" ∧
    decodeHtmlEntities "&#x41;" ≠ "A" := by decide

/-- C7 as amended: normalization is idempotent on every address whose
normalized form does not end in a slash — in particular on all
addresses whose path does not end in two or more slashes — but not in
general, since only a single trailing slash is stripped. -/
theorem normalize_idem_no_trailing_slash (x : String)
    (hx : (normalizeUrl x).data.getLast? ≠ some '/') :
    normalizeUrl (normalizeUrl x) = normalizeUrl x :=
  normalizeUrl_idem_core x hx

/-- C7 counterexample: an address whose path ends in a double slash
is not a fixed point after one normalization, since each application
strips only one trailing slash. -/
theorem normalize_not_idempotent_cex :
    normalizeUrl "https://a.com/b//" = "https://a.com/b/" ∧
    normalizeUrl (normalizeUrl "https://a.com/b//") = "https://a.com/b" ∧
    normalizeUrl (normalizeUrl "https://a.com/b//") ≠ normalizeUrl "https://a.com/b//" := by
  decide

theorem normalize_idem_witness :
    (normalizeUrl "https://a.test/docs").data.getLast? ≠ some '/' ∧
    normalizeUrl (normalizeUrl "https://a.test/docs") = normalizeUrl "https://a.test/docs" :=
  ⟨by decide, normalize_idem_no_trailing_slash "https://a.test/docs" (by decide)⟩

/-- C8 as amended: extractDomain returns an already-lowercased
hostname (the empty string on parse failure), and the same-domain
check compares it with the start domain by plain equality, so an
address with an empty extracted domain is excluded whenever the start
domain is nonempty but accepted by the same-domain filter when the
start address itself has an empty domain. -/
theorem empty_domain_scoping (url startDomain : String) (cfg : CrawlConfig) :
    (extractDomain url).data.map lowerChar = (extractDomain url).data ∧
    (cfg.sameDomainOnly = true → extractDomain url = "" →
      shouldCrawl url startDomain cfg = true → startDomain = "") := by
  constructor
  · unfold extractDomain
    cases parseUrl url.data with
    | none => rfl
    | some p =>
      show ((p.host.takeWhile (fun c => c != ':')).map lowerChar).map lowerChar = _
      rw [map_lowerChar_idem]
  · intro h1 h2 h3
    unfold shouldCrawl at h3
    by_contra hne
    rw [if_pos ?_] at h3
    · cases h3
    · rw [h1, h2]
      simp only [Bool.true_and, bne_iff_ne, ne_eq]
      exact fun he => hne he.symm

/-- C8 counterexample: when the start address itself has an empty
extracted domain, an address with an empty extracted domain passes
the same-domain filter, refuting the claim that such addresses are
never accepted. -/
theorem empty_domain_accepted_cex :
    extractDomain "no scheme" = "" ∧
    extractDomain "other junk" = "" ∧
    shouldCrawl "no scheme" (extractDomain "other junk") DEFAULTS = true := by decide

theorem empty_domain_scoping_witness :
    ((extractDomain "no scheme").data.map lowerChar = (extractDomain "no scheme").data ∧
      (DEFAULTS.sameDomainOnly = true → extractDomain "no scheme" = "" →
        shouldCrawl "no scheme" "" DEFAULTS = true → ("" : String) = "")) ∧
    DEFAULTS.sameDomainOnly = true ∧ extractDomain "no scheme" = "" ∧
    shouldCrawl "no scheme" "" DEFAULTS = true :=
  ⟨empty_domain_scoping "no scheme" "" DEFAULTS, rfl, by decide, by decide⟩

end Crawler
